import Mathlib

/-!
Shallow embedding of the PLTS toolkit core: lattices, twist structures,
worlds, models, the formula lexer and evaluator, and the validity check.
Python exceptions are modelled by `Except` with structured error values,
one constructor per raise site; Python sets and dicts are modelled by
lists (association lists), with first-match lookup mirroring dict lookup
and a deterministic first-occurrence deduplication standing in for set
construction.
-/

set_option synthInstance.maxSize 1024

namespace PLTS

abbrev Label := String

abbrev Pair := Label × Label

/-- Errors raised by the base lattice operations and by the twist-structure
operations built on them (the ValueError sites in src/math_objects/lattice.py).
`implicationMissing` is the raise in TwistStructure.implication,
`implicationMissingResidue` the raise in TwistStructure.residue_meet. -/
inductive LatErr where
  | elemsNotInLattice (a b : Label)
  | noLowerBound (a b : Label)
  | noUniqueMeet (a b : Label)
  | noUpperBound (a b : Label)
  | noUniqueJoin (a b : Label)
  | implicationMissing
  | implicationMissingResidue
deriving DecidableEq

/-- The raw data handed to Lattice.__init__ before validation. -/
structure LatticeData where
  name : String
  elements : List Label
  relations : List (Label × Label)
  implication_map : List ((Label × Label) × Label)
deriving DecidableEq

/-- Lattice.is_less_than_or_equal: membership of the pair in the relation set. -/
def LatticeData.is_less_than_or_equal (D : LatticeData) (a b : Label) : Bool :=
  decide ((a, b) ∈ D.relations)

/-- The set of common lower bounds of a and b computed inside Lattice.meet. -/
def LatticeData.lower_bounds (D : LatticeData) (a b : Label) : List Label :=
  D.elements.filter fun x =>
    D.is_less_than_or_equal x a && D.is_less_than_or_equal x b

/-- The set of common upper bounds of a and b computed inside Lattice.join. -/
def LatticeData.upper_bounds (D : LatticeData) (a b : Label) : List Label :=
  D.elements.filter fun x =>
    D.is_less_than_or_equal a x && D.is_less_than_or_equal b x

/-- Lattice.meet: the set of common lower bounds, then the first lower bound
that is above every other one; each raise becomes an error constructor. -/
def LatticeData.meet (D : LatticeData) (a b : Label) : Except LatErr Label :=
  if a ∈ D.elements ∧ b ∈ D.elements then
    let lb := D.lower_bounds a b
    if lb.isEmpty then .error (.noLowerBound a b)
    else
      match lb.find? (fun x => lb.all fun y => D.is_less_than_or_equal y x) with
      | some x => .ok x
      | none => .error (.noUniqueMeet a b)
  else .error (.elemsNotInLattice a b)

/-- Lattice.join: the set of common upper bounds, then the first upper bound
that is below every other one. -/
def LatticeData.join (D : LatticeData) (a b : Label) : Except LatErr Label :=
  if a ∈ D.elements ∧ b ∈ D.elements then
    let ub := D.upper_bounds a b
    if ub.isEmpty then .error (.noUpperBound a b)
    else
      match ub.find? (fun x => ub.all fun y => D.is_less_than_or_equal x y) with
      | some x => .ok x
      | none => .error (.noUniqueJoin a b)
  else .error (.elemsNotInLattice a b)

/-- Lattice.implication: a direct table lookup, None when the key is absent. -/
def LatticeData.implication (D : LatticeData) (a b : Label) : Option Label :=
  (D.implication_map.find? fun p => decide (p.1 = (a, b))).map Prod.snd

/-- The loop of Lattice.meet_set on a nonempty listing of a set: the
accumulator starts at the head and is met with every listed element in turn
(the head included, as in the Python loop). -/
def LatticeData.fold_meet (D : LatticeData) (l : List Label) (first : Label) :
    Except LatErr Label :=
  l.foldlM D.meet first

/-- The loop of Lattice.join_set on a nonempty listing of a set. -/
def LatticeData.fold_join (D : LatticeData) (l : List Label) (first : Label) :
    Except LatErr Label :=
  l.foldlM D.join first

def exceptOk {ε α : Type} : Except ε α → Bool
  | .ok _ => true
  | .error _ => false

/-- Lattice._check_is_lattice: meet and join must succeed on every ordered
pair of elements. -/
def LatticeData.check_is_lattice (D : LatticeData) : Bool :=
  D.elements.all fun x => D.elements.all fun y =>
    exceptOk (D.meet x y) && exceptOk (D.join x y)

/-- A lattice object as it exists after Lattice.__init__ returned normally:
the validated data together with the derived bottom and top. -/
structure Lattice where
  data : LatticeData
  bottom : Label
  top : Label
deriving DecidableEq

/-- Construction-time failures of Lattice.__init__.  `notALattice` is the
raise with the message naming the lattice; `emptyElements` stands for the
crash of meet_set on an empty element set (self.top is read before it has
been assigned). -/
inductive MkErr where
  | notALattice (name : String)
  | emptyElements (name : String)
deriving DecidableEq

/-- Lattice.__init__: validate, then derive bottom and top by folding meet
and join over the elements.  When the check passed the folds cannot fail, but
the fallback keeps the match total. -/
def mkLattice (name : String) (elements : List Label)
    (relations : List (Label × Label))
    (implication_map : List ((Label × Label) × Label)) : Except MkErr Lattice :=
  let D : LatticeData := ⟨name, elements, relations, implication_map⟩
  if D.check_is_lattice then
    match elements with
    | [] => .error (.emptyElements name)
    | e :: _ =>
      match D.fold_meet elements e, D.fold_join elements e with
      | .ok b, .ok t => .ok ⟨D, b, t⟩
      | _, _ => .error (.notALattice name)
  else .error (.notALattice name)

/-- Lattice.meet_set on a constructed lattice: top on the empty set. -/
def Lattice.meet_set (L : Lattice) (s : List Label) : Except LatErr Label :=
  match s with
  | [] => .ok L.top
  | x :: _ => L.data.fold_meet s x

/-- Lattice.join_set on a constructed lattice: bottom on the empty set. -/
def Lattice.join_set (L : Lattice) (s : List Label) : Except LatErr Label :=
  match s with
  | [] => .ok L.bottom
  | x :: _ => L.data.fold_join s x

/-- Deterministic first-occurrence deduplication, standing in for the Python
set(...) conversions inside weak_meet_set and weak_join_set. -/
def dedupKeepFirst (l : List Label) : List Label :=
  l.foldl (fun acc x => if x ∈ acc then acc else acc ++ [x]) []

namespace TwistStructure

/-- TwistStructure.negation: swap the components. -/
def negation (p : Pair) : Pair := (p.2, p.1)

/-- TwistStructure.weak_meet. -/
def weak_meet (L : Lattice) (p1 p2 : Pair) : Except LatErr Pair := do
  let t ← L.data.meet p1.1 p2.1
  let f ← L.data.join p1.2 p2.2
  return (t, f)

/-- TwistStructure.weak_join. -/
def weak_join (L : Lattice) (p1 p2 : Pair) : Except LatErr Pair := do
  let t ← L.data.join p1.1 p2.1
  let f ← L.data.meet p1.2 p2.2
  return (t, f)

/-- TwistStructure.implication: both table lookups first, the raise when
either is absent, then the two meets. -/
def implication (L : Lattice) (p1 p2 : Pair) : Except LatErr Pair :=
  match L.data.implication p1.1 p2.1, L.data.implication p2.2 p1.2 with
  | some imp_t1_t2, some imp_f2_f1 => do
    let meet_imp ← L.data.meet imp_t1_t2 imp_f2_f1
    let meet_t1_f2 ← L.data.meet p1.1 p2.2
    return (meet_imp, meet_t1_f2)
  | _, _ => .error .implicationMissing

/-- TwistStructure.residue_meet: meet of the truth components first, then both
implication lookups, the raise when either is absent, then their meet. -/
def residue_meet (L : Lattice) (p1 p2 : Pair) : Except LatErr Pair := do
  let meet_t ← L.data.meet p1.1 p2.1
  match L.data.implication p1.1 p2.2, L.data.implication p2.1 p1.2 with
  | some imp1, some imp2 => do
    let meet_imp ← L.data.meet imp1 imp2
    return (meet_t, meet_imp)
  | _, _ => .error .implicationMissingResidue

/-- TwistStructure.weak_meet_set: (top, bottom) on the empty list, otherwise
the meet of the deduplicated truth components and the join of the
deduplicated falsity components. -/
def weak_meet_set (L : Lattice) (pairs : List Pair) : Except LatErr Pair :=
  if pairs.isEmpty then .ok (L.top, L.bottom)
  else do
    let final_t ← L.meet_set (dedupKeepFirst (pairs.map Prod.fst))
    let final_f ← L.join_set (dedupKeepFirst (pairs.map Prod.snd))
    return (final_t, final_f)

/-- TwistStructure.weak_join_set: (bottom, top) on the empty list. -/
def weak_join_set (L : Lattice) (pairs : List Pair) : Except LatErr Pair :=
  if pairs.isEmpty then .ok (L.bottom, L.top)
  else do
    let final_t ← L.join_set (dedupKeepFirst (pairs.map Prod.fst))
    let final_f ← L.meet_set (dedupKeepFirst (pairs.map Prod.snd))
    return (final_t, final_f)

end TwistStructure

/-- First-match association-list lookup, modelling Python dict lookup. -/
def alookup {α β : Type} [DecidableEq α] (k : α) (l : List (α × β)) : Option β :=
  (l.find? fun p => decide (p.1 = k)).map Prod.snd

/-- World: a named state with a proposition-to-raw-value assignment map
(src/math_objects/world.py).  The twist structure reference is not carried
here because evaluation receives the twist structure separately. -/
structure World where
  name_long : String
  name_short : String
  assignments : List (String × String)
deriving DecidableEq

/-- Model: worlds, an action set and the weighted accessibility relation
R as action -> source -> target -> weight (src/math_objects/model.py). -/
structure Model where
  name_model : String
  worlds : List World
  props : List String
  actions : List String
  accessibility_relations : List (String × List (World × List (World × Pair)))
deriving DecidableEq

/-- Model.__init__: the caller-supplied action set is extended with every key
of the accessibility-relations argument (self.actions.update(keys)), and
entries whose weight is None are dropped. -/
def mkModel (name_model : String) (worlds : List World)
    (accessibility_relations : List (String × List (World × List (World × Option Pair))))
    (props : List String) (actions : List String) : Model :=
  { name_model := name_model
    worlds := worlds
    props := props
    actions := actions ++ (accessibility_relations.map Prod.fst).filter (fun a => decide (a ∉ actions))
    accessibility_relations := accessibility_relations.map fun p =>
      (p.1, p.2.map fun q =>
        (q.1, q.2.filterMap fun tw => tw.2.map fun w => (tw.1, w))) }

/-- The lookup model.accessibility_relations.get(action, dict()).get(world, dict())
performed by Diamond.evaluate; the items of the resulting dict. -/
def Model.targets_map (m : Model) (action : String) (w : World) :
    List (World × Pair) :=
  ((alookup action m.accessibility_relations).bind fun srcs => alookup w srcs).getD []

/-- Evaluation-time errors (the ValueError raise sites of
src/parser/formula_parser.py and the pre-check of check_model_validity),
with the lattice-level errors lifted into them. -/
inductive EvalErr where
  | lat (e : LatErr)
  | undefinedAtom (name : String)
  | undefinedAction (action : String) (model : String)
  | missingAssignments (world : String) (atoms : List String)
deriving DecidableEq

def liftLat {α : Type} : Except LatErr α → Except EvalErr α
  | .ok a => .ok a
  | .error e => .error (.lat e)

/-- The AST node variants of src/parser/formula_parser.py. -/
inductive Formula where
  | atom (name : String)
  | not (child : Formula)
  | and (left right : Formula)
  | or (left right : Formula)
  | matImplies (left right : Formula)
  | matIff (left right : Formula)
  | implies (left right : Formula)
  | iff (left right : Formula)
  | diamond (child : Formula) (action : String)
  | box (child : Formula) (action : String)
deriving DecidableEq

def listUnion (a b : List String) : List String :=
  a ++ b.filter fun x => decide (x ∉ a)

/-- get_atoms on every node: union of the referenced proposition names,
excluding the canonical constants. -/
def Formula.get_atoms : Formula → List String
  | .atom n => if n ∈ (["TOP", "BOT", "1", "0"] : List String) then [] else [n]
  | .not c => c.get_atoms
  | .and l r | .or l r | .matImplies l r | .matIff l r | .implies l r | .iff l r =>
      listUnion l.get_atoms r.get_atoms
  | .diamond c _ | .box c _ => c.get_atoms

def quoteChar : Char := Char.ofNat 39

/-- Whether the string starts with an opening parenthesis (the startswith
check in Atom.evaluate). -/
def startsWithParen (s : String) : Bool :=
  match s.data with
  | c :: _ => c = '('
  | [] => false

/-- Strip leading and trailing whitespace. -/
def trimChars (cs : List Char) : List Char :=
  ((cs.dropWhile Char.isWhitespace).reverse.dropWhile Char.isWhitespace).reverse

/-- Split on a separator character, keeping empty groups. -/
def splitOnChar (sep : Char) (cs : List Char) : List (List Char) :=
  cs.foldr
    (fun c acc =>
      if c = sep then [] :: acc
      else
        match acc with
        | g :: gs => (c :: g) :: gs
        | [] => [[c]])
    [[]]

/-- Removes a matching pair of single quotes, as found around the components
of a Python str() rendering of a pair of labels. -/
def unquoteChars (cs : List Char) : Option (List Char) :=
  match cs with
  | c :: rest =>
    if c = quoteChar ∧ rest ≠ [] ∧ rest.getLast? = some quoteChar then
      some rest.dropLast
    else none
  | [] => none

/-- A nonempty run of decimal digits, an integer item of a tuple literal. -/
def isDigitsItem (cs : List Char) : Bool :=
  !cs.isEmpty && cs.all Char.isDigit

/-- A tuple item that is itself a simple literal: a quoted label or an
unsigned decimal integer. -/
def isAtomItem (cs : List Char) : Bool :=
  (unquoteChars cs).isSome || isDigitsItem cs

/-- The three outcomes of the ast.literal_eval call in Atom.evaluate:
a two-element tuple of quoted labels (the value shape the repository
stores), a successful parse of some other literal (another arity, unquoted
numbers, a parenthesised atom, the empty tuple), or a raise. -/
inductive LitOutcome where
  | pairOf (t f : Label)
  | otherLiteral
  | raises
deriving DecidableEq

/-- Models ast.literal_eval (library code outside this repository) on the
class of strings this code path sees: flat parenthesised tuples whose items
are quoted labels (without embedded quotes or commas) or unsigned decimal
integers, plus the empty tuple.  Within that class: exactly two quoted
items form pairOf; any other all-literal item list is a successful non-pair
parse (otherLiteral), which Atom.evaluate returns unchanged; everything
else makes literal_eval raise (raises), which the surrounding try/except
converts into the (s, s) fallback. -/
def literalEval (s : String) : LitOutcome :=
  match s.data with
  | c :: rest =>
    if c = '(' ∧ rest.getLast? = some ')' then
      let inner := rest.dropLast
      if trimChars inner = [] then .otherLiteral
      else
        let items := (splitOnChar ',' inner).map trimChars
        match items with
        | [a, b] =>
          match unquoteChars a, unquoteChars b with
          | some x, some y => .pairOf (String.mk x) (String.mk y)
          | _, _ => if isAtomItem a && isAtomItem b then .otherLiteral else .raises
        | _ =>
          let core :=
            if 2 ≤ items.length ∧ items.getLast? = some [] then items.dropLast
            else items
          if !core.isEmpty && core.all isAtomItem then .otherLiteral else .raises
    else .raises
  | [] => .raises

/-- The projection of literalEval onto the stored pair shape: the parsed
pair of labels when the string is a two-element tuple of quoted labels,
none otherwise. -/
def parsePairLiteral (s : String) : Option Pair :=
  match literalEval s with
  | .pairOf t f => some (t, f)
  | _ => none

/-- The raw Python value Atom.evaluate produces for a looked-up assignment
string: a typed label pair, or a successfully parsed non-pair literal,
which the source returns unchanged and which is not typable as a Pair. -/
inductive RawAtomValue where
  | pairVal (p : Pair)
  | nonPairLiteral (s : String)
deriving DecidableEq

/-- The body of the try/except in Atom.evaluate once the assignment string
has been fetched, at Python value level: strings starting with an opening
parenthesis go through literal_eval, whose successful results are returned
unchanged (a pair, or a non-pair literal) and whose raise is swallowed
into (s, s); anything else becomes (s, s). -/
def rawAtomValue (s : String) : RawAtomValue :=
  if startsWithParen s then
    match literalEval s with
    | .pairOf t f => .pairVal (t, f)
    | .otherLiteral => .nonPairLiteral s
    | .raises => .pairVal (s, s)
  else .pairVal (s, s)

/-- The typed projection of rawAtomValue used by the Pair-valued evaluator:
a parsed non-pair literal is not representable as a Pair, so the typed
evaluator is faithful exactly on assignments whose strings do not
successfully parse to a non-pair literal; rawAtomValue records the raw
behaviour on the rest. -/
def atomValue (s : String) : Pair :=
  if startsWithParen s then
    match parsePairLiteral s with
    | some p => p
    | none => (s, s)
  else (s, s)

/-- The loop body of Diamond.evaluate: for each stored (target, weight) item,
evaluate the child at the target and combine with the weight through
residue_meet, collecting the results in order. -/
def evalResidueList (L : Lattice) (evalChild : World → Except EvalErr Pair) :
    List (World × Pair) → Except EvalErr (List Pair)
  | [] => .ok []
  | tw :: rest => do
    let val_succ ← evalChild tw.1
    let residue_val ← liftLat (TwistStructure.residue_meet L tw.2 val_succ)
    let rs ← evalResidueList L evalChild rest
    return (residue_val :: rs)

/-- Diamond.evaluate given an evaluator for the child: the action check, the
loop over the stored targets, then weak_join_set over the collected results.
Box.evaluate runs the same loop with the evaluator of Not(child) and negates
the result. -/
def diamondEval (m : Model) (w : World) (L : Lattice) (action : String)
    (evalChild : World → Except EvalErr Pair) : Except EvalErr Pair :=
  if action ∈ m.actions then do
    let results ← evalResidueList L evalChild (m.targets_map action w)
    liftLat (TwistStructure.weak_join_set L results)
  else .error (.undefinedAction action m.name_model)

/-- The evaluate methods of the AST nodes.  The Box case is the body of
Box.evaluate with Diamond(Not(child), action).evaluate unfolded one step:
the evaluator of Not(child) at a target is the negated evaluator of the
child, which keeps the recursion structural. -/
def Formula.evaluate : Formula → Model → World → Lattice → Except EvalErr Pair
  | .atom name, _, w, L =>
    if name = "BOT" ∨ name = "0" then .ok (L.bottom, L.top)
    else if name = "TOP" ∨ name = "1" then .ok (L.top, L.bottom)
    else
      match alookup name w.assignments with
      | some val_str => .ok (atomValue val_str)
      | none => .error (.undefinedAtom name)
  | .not c, m, w, L => (c.evaluate m w L).map TwistStructure.negation
  | .and l r, m, w, L => do
    let vl ← l.evaluate m w L
    let vr ← r.evaluate m w L
    liftLat (TwistStructure.weak_meet L vl vr)
  | .or l r, m, w, L => do
    let vl ← l.evaluate m w L
    let vr ← r.evaluate m w L
    liftLat (TwistStructure.weak_join L vl vr)
  | .matImplies l r, m, w, L => do
    let val_l ← l.evaluate m w L
    let not_l := TwistStructure.negation val_l
    let val_r ← r.evaluate m w L
    liftLat (TwistStructure.weak_join L not_l val_r)
  | .matIff l r, m, w, L => do
    let val_l ← l.evaluate m w L
    let val_r ← r.evaluate m w L
    let not_l := TwistStructure.negation val_l
    let not_r := TwistStructure.negation val_r
    let imp_lr ← liftLat (TwistStructure.weak_join L not_l val_r)
    let imp_rl ← liftLat (TwistStructure.weak_join L not_r val_l)
    liftLat (TwistStructure.weak_meet L imp_lr imp_rl)
  | .implies l r, m, w, L => do
    let vl ← l.evaluate m w L
    let vr ← r.evaluate m w L
    liftLat (TwistStructure.implication L vl vr)
  | .iff l r, m, w, L => do
    let v1 ← l.evaluate m w L
    let v2 ← r.evaluate m w L
    let i1 ← liftLat (TwistStructure.implication L v1 v2)
    let i2 ← liftLat (TwistStructure.implication L v2 v1)
    liftLat (TwistStructure.weak_meet L i1 i2)
  | .diamond c a, m, w, L => diamondEval m w L a fun t => c.evaluate m t L
  | .box c a, m, w, L =>
    (diamondEval m w L a fun t =>
      (c.evaluate m t L).map TwistStructure.negation).map TwistStructure.negation

/-- Lexical errors, one constructor per ValueError raise site of
Lexer.get_next_token; none of the Python messages interpolates a source
position, and only unknownChar interpolates anything at all (the character). -/
inductive LexErr where
  | boxEmptyAction
  | boxMissingAction
  | boxExpectedClose
  | iffExpectedGt
  | diamondEmptyAction
  | diamondMissingAction
  | diamondExpectedClose
  | eqExpectedGt
  | dashExpectedGt
  | unknownChar (c : Char)
deriving DecidableEq

/-- The tokens produced by the lexer.  IFF is never produced (the parser
checks for it, so it is kept for the parser to match on). -/
inductive Token where
  | BOX (action : String)
  | DIAMOND (action : String)
  | ATOM (val : String)
  | NOT
  | AND
  | OR
  | LPAREN
  | RPAREN
  | IMPLIES
  | MAT_IMPLIES
  | MAT_IFF
  | IFF
  | EOF
deriving DecidableEq

inductive TokenKind where
  | BOX
  | DIAMOND
  | ATOM
  | NOT
  | AND
  | OR
  | LPAREN
  | RPAREN
  | IMPLIES
  | MAT_IMPLIES
  | MAT_IFF
  | IFF
  | EOF
deriving DecidableEq

/-- The first component of the Python token pair. -/
def Token.kind : Token → TokenKind
  | .BOX _ => .BOX
  | .DIAMOND _ => .DIAMOND
  | .ATOM _ => .ATOM
  | .NOT => .NOT
  | .AND => .AND
  | .OR => .OR
  | .LPAREN => .LPAREN
  | .RPAREN => .RPAREN
  | .IMPLIES => .IMPLIES
  | .MAT_IMPLIES => .MAT_IMPLIES
  | .MAT_IFF => .MAT_IFF
  | .IFF => .IFF
  | .EOF => .EOF

/-- ASCII upper-casing of a character, as Python str.upper acts on the
identifier characters the lexer can produce. -/
def pyUpperChar (c : Char) : Char :=
  if c.toNat ≥ 97 ∧ c.toNat ≤ 122 then Char.ofNat (c.toNat - 32) else c

def pyUpper (s : String) : String := String.mk (s.data.map pyUpperChar)

/-- ASCII lower-casing, as Python str.lower acts on proposition names. -/
def pyLowerChar (c : Char) : Char :=
  if c.toNat ≥ 65 ∧ c.toNat ≤ 90 then Char.ofNat (c.toNat + 32) else c

def pyLower (s : String) : String := String.mk (s.data.map pyLowerChar)

/-- Identifier characters: alphanumeric or underscore (Lexer.get_identifier). -/
def isIdentChar (c : Char) : Bool := c.isAlphanum || c = '_'

/-- Lexer.get_identifier: the longest run of identifier characters. -/
def getIdentifier (cs : List Char) : String × List Char :=
  let p := cs.span isIdentChar
  (String.mk p.1, p.2)

/-- Lexer.get_next_token on the remaining characters.  The branches follow the
Python dispatch order; the standalone checks for the characters 1 and 0 after
the alphanumeric branch are unreachable in the source and therefore absent. -/
def getNextToken (cs : List Char) : Except LexErr (Token × List Char) :=
  match cs.dropWhile Char.isWhitespace with
  | [] => .ok (.EOF, [])
  | c :: rest =>
    if c = '[' then
      match rest with
      | ']' :: _ => .error .boxEmptyAction
      | _ =>
        let p := getIdentifier rest
        if p.1 = "" then .error .boxMissingAction
        else
          match p.2 with
          | ']' :: rest3 => .ok (.BOX p.1, rest3)
          | _ => .error .boxExpectedClose
    else if c = '<' then
      match rest with
      | '-' :: rest2 =>
        match rest2 with
        | '>' :: rest3 => .ok (.MAT_IFF, rest3)
        | _ => .error .iffExpectedGt
      | '>' :: _ => .error .diamondEmptyAction
      | _ =>
        let p := getIdentifier rest
        if p.1 = "" then .error .diamondMissingAction
        else
          match p.2 with
          | '>' :: rest3 => .ok (.DIAMOND p.1, rest3)
          | _ => .error .diamondExpectedClose
    else if c = '=' then
      match rest with
      | '>' :: rest2 => .ok (.IMPLIES, rest2)
      | _ => .error .eqExpectedGt
    else if c.isAlphanum then
      let p := getIdentifier (c :: rest)
      if p.1 = "1" ∨ pyUpper p.1 = "TOP" then .ok (.ATOM "TOP", p.2)
      else if p.1 = "0" ∨ pyUpper p.1 = "BOT" then .ok (.ATOM "BOT", p.2)
      else .ok (.ATOM p.1, p.2)
    else if c = '~' then .ok (.NOT, rest)
    else if c = '&' then .ok (.AND, rest)
    else if c = '|' then .ok (.OR, rest)
    else if c = '(' then .ok (.LPAREN, rest)
    else if c = ')' then .ok (.RPAREN, rest)
    else if c = '-' then
      match rest with
      | '>' :: rest2 => .ok (.MAT_IMPLIES, rest2)
      | _ => .error .dashExpectedGt
    else .error (.unknownChar c)

/-- Parse errors, one constructor per ValueError raise site of FormulaParser,
plus the propagated lexical errors and an out-of-fuel artefact of the
embedding (the Python recursion carries no fuel). -/
inductive ParseErr where
  | lex (e : LexErr)
  | expected (want : TokenKind) (got : TokenKind)
  | unexpectedToken (got : TokenKind)
  | trailingInput
  | outOfFuel
deriving DecidableEq

/-- Parser state: the current token plus the unconsumed characters. -/
structure PState where
  tok : Token
  rest : List Char
deriving DecidableEq

/-- FormulaParser.eat: kind check, then pull the next token from the lexer. -/
def eat (st : PState) (token_type : TokenKind) : Except ParseErr PState :=
  if st.tok.kind = token_type then
    match getNextToken st.rest with
    | .ok tr => .ok ⟨tr.1, tr.2⟩
    | .error e => .error (.lex e)
  else .error (.expected token_type st.tok.kind)

mutual

/-- FormulaParser.iff: an implies level followed by the IFF/MAT_IFF loop. -/
def parseIff (fuel : Nat) (st : PState) : Except ParseErr (Formula × PState) :=
  match fuel with
  | 0 => .error .outOfFuel
  | fuel + 1 => do
    let r ← parseImplies fuel st
    parseIffLoop fuel r.1 r.2

def parseIffLoop (fuel : Nat) (node : Formula) (st : PState) :
    Except ParseErr (Formula × PState) :=
  match fuel with
  | 0 => .error .outOfFuel
  | fuel + 1 =>
    if st.tok.kind = .IFF ∨ st.tok.kind = .MAT_IFF then do
      let tk := st.tok.kind
      let st1 ← eat st tk
      let r ← parseImplies fuel st1
      if tk = .IFF then parseIffLoop fuel (.iff node r.1) r.2
      else parseIffLoop fuel (.matIff node r.1) r.2
    else .ok (node, st)

/-- FormulaParser.implies: an expr_sum level followed by the
IMPLIES/MAT_IMPLIES loop. -/
def parseImplies (fuel : Nat) (st : PState) : Except ParseErr (Formula × PState) :=
  match fuel with
  | 0 => .error .outOfFuel
  | fuel + 1 => do
    let r ← parseExprSum fuel st
    parseImpliesLoop fuel r.1 r.2

def parseImpliesLoop (fuel : Nat) (node : Formula) (st : PState) :
    Except ParseErr (Formula × PState) :=
  match fuel with
  | 0 => .error .outOfFuel
  | fuel + 1 =>
    if st.tok.kind = .IMPLIES ∨ st.tok.kind = .MAT_IMPLIES then do
      let tk := st.tok.kind
      let st1 ← eat st tk
      let r ← parseExprSum fuel st1
      if tk = .IMPLIES then parseImpliesLoop fuel (.implies node r.1) r.2
      else parseImpliesLoop fuel (.matImplies node r.1) r.2
    else .ok (node, st)

/-- FormulaParser.expr_sum: an expr_prod level followed by the OR loop. -/
def parseExprSum (fuel : Nat) (st : PState) : Except ParseErr (Formula × PState) :=
  match fuel with
  | 0 => .error .outOfFuel
  | fuel + 1 => do
    let r ← parseExprProd fuel st
    parseExprSumLoop fuel r.1 r.2

def parseExprSumLoop (fuel : Nat) (node : Formula) (st : PState) :
    Except ParseErr (Formula × PState) :=
  match fuel with
  | 0 => .error .outOfFuel
  | fuel + 1 =>
    if st.tok.kind = .OR then do
      let st1 ← eat st .OR
      let r ← parseExprProd fuel st1
      parseExprSumLoop fuel (.or node r.1) r.2
    else .ok (node, st)

/-- FormulaParser.expr_prod: a unary level followed by the AND loop. -/
def parseExprProd (fuel : Nat) (st : PState) : Except ParseErr (Formula × PState) :=
  match fuel with
  | 0 => .error .outOfFuel
  | fuel + 1 => do
    let r ← parseUnary fuel st
    parseExprProdLoop fuel r.1 r.2

def parseExprProdLoop (fuel : Nat) (node : Formula) (st : PState) :
    Except ParseErr (Formula × PState) :=
  match fuel with
  | 0 => .error .outOfFuel
  | fuel + 1 =>
    if st.tok.kind = .AND then do
      let st1 ← eat st .AND
      let r ← parseUnary fuel st1
      parseExprProdLoop fuel (.and node r.1) r.2
    else .ok (node, st)

/-- FormulaParser.unary: NOT, BOX and DIAMOND recurse into unary, a
parenthesis recurses into iff, an atom is a leaf; anything else is the
unexpected-token raise. -/
def parseUnary (fuel : Nat) (st : PState) : Except ParseErr (Formula × PState) :=
  match fuel with
  | 0 => .error .outOfFuel
  | fuel + 1 =>
    match st.tok with
    | .NOT => do
      let st1 ← eat st .NOT
      let r ← parseUnary fuel st1
      return (.not r.1, r.2)
    | .BOX action => do
      let st1 ← eat st .BOX
      let r ← parseUnary fuel st1
      return (.box r.1 action, r.2)
    | .DIAMOND action => do
      let st1 ← eat st .DIAMOND
      let r ← parseUnary fuel st1
      return (.diamond r.1 action, r.2)
    | .LPAREN => do
      let st1 ← eat st .LPAREN
      let r ← parseIff fuel st1
      let st2 ← eat r.2 .RPAREN
      return (r.1, st2)
    | .ATOM val => do
      let st1 ← eat st .ATOM
      return (.atom val, st1)
    | t => .error (.unexpectedToken t.kind)

end

/-- FormulaParser.__init__ followed by parse: pull the first token, run the
iff level, then require EOF.  The fuel is an embedding artefact; it is
generous enough for every input since each cycle through the five levels
consumes at least one character. -/
def parse (text : String) : Except ParseErr Formula :=
  match getNextToken text.data with
  | .error e => .error (.lex e)
  | .ok tr =>
    match parseIff (8 * (text.length + 1)) ⟨tr.1, tr.2⟩ with
    | .error e => .error e
    | .ok r => if r.2.tok.kind = .EOF then .ok r.1 else .error .trailingInput

/-- Lexicographic order on character lists, by code point, as Python
compares the sort keys. -/
def charListLe : List Char → List Char → Bool
  | [], _ => true
  | _ :: _, [] => false
  | c1 :: r1, c2 :: r2 =>
    if c1 = c2 then charListLe r1 r2 else decide (c1.toNat < c2.toNat)

def strLe (a b : String) : Bool := charListLe a.data b.data

/-- Stable insertion into a list sorted by name_long. -/
def insertByName (w : World) : List World → List World
  | [] => [w]
  | x :: xs =>
    if strLe w.name_long x.name_long then w :: x :: xs else x :: insertByName w xs

/-- Python sorted(model.worlds, key world name_long). -/
def sortWorlds (ws : List World) : List World := ws.foldr insertByName []

/-- The unknown-atoms pre-check of MainWindow.check_model_validity: atoms of
the formula with no assignment in the world, excluding the literal 0 and any
casing of bot. -/
def checkAtoms (root : Formula) (w : World) : List String :=
  root.get_atoms.filter fun a =>
    decide (alookup a w.assignments = none) && decide (a ≠ "0") && decide (pyLower a ≠ "bot")

/-- The per-world loop of MainWindow.check_model_validity: the pre-check, the
evaluation, the collected result list and the list of failed world names. -/
def validityLoop (m : Model) (L : Lattice) (root : Formula) :
    List World → Except EvalErr (List Pair × List String)
  | [] => .ok ([], [])
  | w :: rest =>
    let unknown := checkAtoms root w
    if unknown.isEmpty then do
      let res ← root.evaluate m w L
      let rf ← validityLoop m L root rest
      return (res :: rf.1,
        if res ≠ (L.top, L.bottom) then w.name_long :: rf.2 else rf.2)
    else .error (.missingAssignments w.name_short unknown)

structure ValidityResult where
  validity_val : Pair
  is_valid : Bool
deriving DecidableEq

/-- MainWindow.check_model_validity after parsing: evaluate at every world in
name order, aggregate with weak_meet_set, and declare validity when the
aggregate is (top, bottom) and no world failed. -/
def check_model_validity (m : Model) (L : Lattice) (root : Formula) :
    Except EvalErr ValidityResult := do
  let rf ← validityLoop m L root (sortWorlds m.worlds)
  let validity_val ← liftLat (TwistStructure.weak_meet_set L rf.1)
  return ⟨validity_val, decide (validity_val = (L.top, L.bottom)) && rf.2.isEmpty⟩

instance exceptDecEq {ε α : Type} [DecidableEq ε] [DecidableEq α] :
    DecidableEq (Except ε α)
  | .ok a, .ok b =>
    if h : a = b then .isTrue (by rw [h]) else .isFalse (by intro hh; cases hh; exact h rfl)
  | .error a, .error b =>
    if h : a = b then .isTrue (by rw [h]) else .isFalse (by intro hh; cases hh; exact h rfl)
  | .ok _, .error _ => .isFalse (by intro hh; cases hh)
  | .error _, .ok _ => .isFalse (by intro hh; cases hh)

/-- x is a greatest lower bound of a and b among the elements, under the
stored order relation. -/
def isGLB (D : LatticeData) (a b x : Label) : Prop :=
  x ∈ D.elements ∧ D.is_less_than_or_equal x a = true ∧
    D.is_less_than_or_equal x b = true ∧
    ∀ y, y ∈ D.elements → D.is_less_than_or_equal y a = true →
      D.is_less_than_or_equal y b = true → D.is_less_than_or_equal y x = true

/-- x is a least upper bound of a and b among the elements. -/
def isLUB (D : LatticeData) (a b x : Label) : Prop :=
  x ∈ D.elements ∧ D.is_less_than_or_equal a x = true ∧
    D.is_less_than_or_equal b x = true ∧
    ∀ y, y ∈ D.elements → D.is_less_than_or_equal a y = true →
      D.is_less_than_or_equal b y = true → D.is_less_than_or_equal x y = true

/-- Antisymmetry of the stored relation pairs, the property the data model
assumes of the supplied order. -/
def antisymmetricOn (rels : List (Label × Label)) : Bool :=
  rels.all fun p => !(decide ((p.2, p.1) ∈ rels)) || decide (p.1 = p.2)

/-- The pair a, b admits no common lower bound, or no lower bound lies above
all common lower bounds: the situations in which Lattice.meet raises. -/
def meetFails (D : LatticeData) (a b : Label) : Prop :=
  D.lower_bounds a b = [] ∨
    ∀ x ∈ D.lower_bounds a b, ∃ y ∈ D.lower_bounds a b,
      D.is_less_than_or_equal y x = false

/-- The pair a, b admits no common upper bound, or no upper bound lies below
all common upper bounds: the situations in which Lattice.join raises. -/
def joinFails (D : LatticeData) (a b : Label) : Prop :=
  D.upper_bounds a b = [] ∨
    ∀ x ∈ D.upper_bounds a b, ∃ y ∈ D.upper_bounds a b,
      D.is_less_than_or_equal x y = false

/-! Concrete objects used by the witnesses: the two-element lattice of the
specification, a twist-structure model over it, and a few worlds. -/

def D01 : LatticeData :=
  ⟨"L01", ["0", "1"], [("0", "0"), ("1", "1"), ("0", "1")],
    [(("0", "0"), "1"), (("0", "1"), "1"), (("1", "0"), "0"), (("1", "1"), "1")]⟩

def L01 : Lattice := ⟨D01, "0", "1"⟩

/-- The Python str() rendering of a pair of labels, quotes included. -/
def pairStr (t f : Label) : String :=
  String.mk ([Char.ofNat 40, quoteChar] ++ t.data ++ [quoteChar, Char.ofNat 44, ' ', quoteChar]
    ++ f.data ++ [quoteChar, Char.ofNat 41])

def wA : World := ⟨"w1", "w1", [("p", pairStr "1" "0")]⟩

def wB : World := ⟨"w2", "w2", [("q", pairStr "1" "0")]⟩

def wC : World := ⟨"w2", "w2", [("p", pairStr "1" "0")]⟩

def wBad : World := ⟨"w3", "w3", [("p", "(bad")]⟩

def wD : World := ⟨"w4", "w4", [("p", "1")]⟩

def wTriple : World := ⟨"w5", "w5", [("p", "(1, 2, 3)")]⟩

def M1 : Model :=
  mkModel "M1" [wA, wB] [("a", [(wA, [(wB, some ("1", "0"))])])] ["p", "q"] ["a"]

def M2 : Model := mkModel "M2" [wA, wC] [] ["p"] []

/-! Helper lemmas. -/

theorem ok_bind {ε α β : Type} (a : α) (f : α → Except ε β) :
    (Except.ok a : Except ε α) >>= f = f a := rfl

theorem error_bind {ε α β : Type} (e : ε) (f : α → Except ε β) :
    (Except.error e : Except ε α) >>= f = Except.error e := rfl

theorem ok_map {ε α β : Type} (a : α) (f : α → β) :
    (Except.ok a : Except ε α).map f = Except.ok (f a) := rfl

theorem error_map {ε α β : Type} (e : ε) (f : α → β) :
    (Except.error e : Except ε α).map f = Except.error e := rfl

theorem literalEval_pairOf_paren {s : String} {t f : Label}
    (h : literalEval s = .pairOf t f) : startsWithParen s = true := by
  cases hs : s.data with
  | nil => simp [literalEval, hs] at h
  | cons c rest =>
    simp only [literalEval, hs] at h
    simp only [startsWithParen, hs]
    split at h
    · rename_i hcond
      simp [hcond.1]
    · cases h

theorem parsePairLiteral_paren {s : String} {p : Pair}
    (h : parsePairLiteral s = some p) : startsWithParen s = true := by
  simp only [parsePairLiteral] at h
  cases hl : literalEval s with
  | pairOf t f => exact literalEval_pairOf_paren hl
  | otherLiteral => rw [hl] at h; cases h
  | raises => rw [hl] at h; cases h

/-- Evaluation of Not, unfolded one step. -/
theorem evaluate_not (c : Formula) (m : Model) (w : World) (L : Lattice) :
    Formula.evaluate (.not c) m w L =
      (Formula.evaluate c m w L).map TwistStructure.negation := rfl

/-- The Diamond loop collects exactly the residue values of the stored
targets, in order. -/
theorem evalResidueList_eq_mapM (L : Lattice) (f : World → Except EvalErr Pair)
    (l : List (World × Pair)) :
    evalResidueList L f l =
      l.mapM (fun tw => do
        let v ← f tw.1
        liftLat (TwistStructure.residue_meet L tw.2 v)) := by
  induction l with
  | nil => rfl
  | cons tw rest ih =>
    rw [List.mapM_cons, ← ih]
    simp only [evalResidueList, bind_assoc, pure_bind]

/-! Claim theorems. -/

/-- C4: for every child formula, action, model, world and twist structure,
Box(child, action) evaluates to the negation of Diamond(Not(child), action);
Box is never computed independently of Diamond. -/
theorem box_evaluate_negated_diamond (c : Formula) (a : String) (m : Model)
    (w : World) (L : Lattice) :
    Formula.evaluate (.box c a) m w L =
      (Formula.evaluate (.diamond (.not c) a) m w L).map TwistStructure.negation := rfl

/-- C6: modal and unary prefixes bind tighter than every binary operator and
all binary operators are left-associative; in particular "[a]p & q" parses as
And(Box(Atom p, a), Atom q) and never as Box applied to the conjunction. -/
theorem parse_precedence :
    parse "[a]p & q" = .ok (.and (.box (.atom "p") "a") (.atom "q")) ∧
    parse "<a>p & q" = .ok (.and (.diamond (.atom "p") "a") (.atom "q")) ∧
    parse "[a]~p & q" = .ok (.and (.box (.not (.atom "p")) "a") (.atom "q")) ∧
    parse "~p & q" = .ok (.and (.not (.atom "p")) (.atom "q")) ∧
    parse "p & q & r" = .ok (.and (.and (.atom "p") (.atom "q")) (.atom "r")) ∧
    parse "p | q | r" = .ok (.or (.or (.atom "p") (.atom "q")) (.atom "r")) ∧
    parse "p -> q -> r" =
      .ok (.matImplies (.matImplies (.atom "p") (.atom "q")) (.atom "r")) ∧
    parse "p => q => r" = .ok (.implies (.implies (.atom "p") (.atom "q")) (.atom "r")) ∧
    parse "p <-> q <-> r" = .ok (.matIff (.matIff (.atom "p") (.atom "q")) (.atom "r")) ∧
    parse "p & q | r" = .ok (.or (.and (.atom "p") (.atom "q")) (.atom "r")) ∧
    parse "p | q -> r" = .ok (.matImplies (.or (.atom "p") (.atom "q")) (.atom "r")) :=
  ⟨rfl, rfl, rfl, rfl, rfl, rfl, rfl, rfl, rfl, rfl, rfl⟩

/-- C7 counterexample: the lexical errors raised for a malformed diamond or
box prefix are constant values that carry no character offset: the inputs
"<>p" and "x & <>p" put the offending angle at offsets 0 and 4 respectively
yet produce literally identical errors, and likewise for "[]p" and
"x & []p", so no error raised here can reference the offending position. -/
theorem lex_error_positionless :
    parse "<>p" = .error (.lex .diamondEmptyAction) ∧
    parse "x & <>p" = .error (.lex .diamondEmptyAction) ∧
    parse "[]p" = .error (.lex .boxEmptyAction) ∧
    parse "x & []p" = .error (.lex .boxEmptyAction) ∧
    ("<>p".data.findIdx? (fun c => decide (c = '<')) = some 0) ∧
    ("x & <>p".data.findIdx? (fun c => decide (c = '<')) = some 4) ∧
    ("[]p".data.findIdx? (fun c => decide (c = '[')) = some 0) ∧
    ("x & []p".data.findIdx? (fun c => decide (c = '[')) = some 4) :=
  ⟨rfl, rfl, rfl, rfl, rfl, rfl, rfl, rfl⟩

/-- C7 amended: tokenizing "<>p" and "[]p" each raises a syntax error
identifying the malformed diamond or box operator, but the error carries no
character offset. -/
theorem lex_error_empty_action :
    parse "<>p" = .error (.lex .diamondEmptyAction) ∧
    parse "[]p" = .error (.lex .boxEmptyAction) := ⟨rfl, rfl⟩

/-- C5: Atom evaluation returns (bottom, top) for the canonical BOT and 0
names, (top, bottom) for TOP and 1; every other name is looked up in the
world assignments, failing with UndefinedAtom when absent; a stored literal
pair string is parsed into its two components and a bare label v becomes
(v, v). -/
theorem atom_evaluate_spec (n : String) (m : Model) (w : World) (L : Lattice) :
    ((n = "BOT" ∨ n = "0") →
      Formula.evaluate (.atom n) m w L = .ok (L.bottom, L.top)) ∧
    ((n = "TOP" ∨ n = "1") →
      Formula.evaluate (.atom n) m w L = .ok (L.top, L.bottom)) ∧
    (n ∉ (["BOT", "0", "TOP", "1"] : List String) →
      (alookup n w.assignments = none →
        Formula.evaluate (.atom n) m w L = .error (.undefinedAtom n)) ∧
      (∀ s t f, alookup n w.assignments = some s → parsePairLiteral s = some (t, f) →
        Formula.evaluate (.atom n) m w L = .ok (t, f)) ∧
      (∀ s, alookup n w.assignments = some s → startsWithParen s = false →
        Formula.evaluate (.atom n) m w L = .ok (s, s))) := by
  refine ⟨?_, ?_, ?_⟩
  · rintro (rfl | rfl) <;> rfl
  · rintro (rfl | rfl) <;> rfl
  · intro hn
    simp only [List.mem_cons, List.not_mem_nil, or_false, not_or] at hn
    obtain ⟨h1, h2, h3, h4⟩ := hn
    have hcond1 : ¬(n = "BOT" ∨ n = "0") := by simp [h1, h2]
    have hcond2 : ¬(n = "TOP" ∨ n = "1") := by simp [h3, h4]
    refine ⟨?_, ?_, ?_⟩
    · intro hnone
      simp [Formula.evaluate, hcond1, hcond2, hnone]
    · intro s t f hsome hpair
      have hparen := parsePairLiteral_paren hpair
      simp [Formula.evaluate, hcond1, hcond2, hsome, atomValue, hparen, hpair]
    · intro s hsome hparen
      simp [Formula.evaluate, hcond1, hcond2, hsome, atomValue, hparen]

/-- C5 witness. -/
theorem atom_evaluate_spec_witness :
    Formula.evaluate (.atom "BOT") M1 wA L01 = .ok (L01.bottom, L01.top) ∧
    Formula.evaluate (.atom "TOP") M1 wA L01 = .ok (L01.top, L01.bottom) ∧
    Formula.evaluate (.atom "r") M1 wA L01 = .error (.undefinedAtom "r") ∧
    Formula.evaluate (.atom "p") M1 wA L01 = .ok ("1", "0") ∧
    Formula.evaluate (.atom "p") M1 wD L01 = .ok ("1", "1") :=
  ⟨(atom_evaluate_spec "BOT" M1 wA L01).1 (Or.inl rfl),
   (atom_evaluate_spec "TOP" M1 wA L01).2.1 (Or.inl rfl),
   ((atom_evaluate_spec "r" M1 wA L01).2.2 (by decide)).1 (by decide),
   ((atom_evaluate_spec "p" M1 wA L01).2.2 (by decide)).2.1 (pairStr "1" "0") "1" "0"
     (by decide) (by decide),
   ((atom_evaluate_spec "p" M1 wD L01).2.2 (by decide)).2.2 "1" (by decide) (by decide)⟩

/-- C9 counterexample: the string (1, 2, 3) begins with an opening
parenthesis and is not a two-element literal pair, yet literal_eval
succeeds on it, so Atom.evaluate returns the parsed three-element tuple
unchanged and not the pair of the raw string with itself. -/
theorem atom_nonpair_literal_cex :
    literalEval "(1, 2, 3)" = .otherLiteral ∧
    rawAtomValue "(1, 2, 3)" = .nonPairLiteral "(1, 2, 3)" ∧
    rawAtomValue "(1, 2, 3)" ≠ .pairVal ("(1, 2, 3)", "(1, 2, 3)") ∧
    startsWithParen "(1, 2, 3)" = true ∧
    parsePairLiteral "(1, 2, 3)" = none := by decide

/-- C9 amended: an assignment string beginning with an opening parenthesis
on which literal_eval raises is silently returned as the pair (s, s), no
error escaping; but a string that successfully parses as a literal other
than a two-element pair of quoted labels is returned as that parsed
literal, unchanged, not as (s, s). -/
theorem atom_evaluate_literal_raises (n : String) (m : Model) (w : World)
    (L : Lattice) (s : String)
    (h1 : n ∉ (["BOT", "0", "TOP", "1"] : List String))
    (h2 : alookup n w.assignments = some s) (h3 : startsWithParen s = true) :
    (literalEval s = .raises →
      Formula.evaluate (.atom n) m w L = .ok (s, s) ∧
      rawAtomValue s = .pairVal (s, s)) ∧
    (literalEval s = .otherLiteral → rawAtomValue s = .nonPairLiteral s) := by
  constructor
  · intro h4
    have hnone : parsePairLiteral s = none := by simp [parsePairLiteral, h4]
    constructor
    · simp only [List.mem_cons, List.not_mem_nil, or_false, not_or] at h1
      obtain ⟨g1, g2, g3, g4⟩ := h1
      have hcond1 : ¬(n = "BOT" ∨ n = "0") := by simp [g1, g2]
      have hcond2 : ¬(n = "TOP" ∨ n = "1") := by simp [g3, g4]
      simp [Formula.evaluate, hcond1, hcond2, h2, atomValue, h3, hnone]
    · simp [rawAtomValue, h3, h4]
  · intro h4
    simp [rawAtomValue, h3, h4]

/-- C9 witness: the unparsable string (bad is swallowed into a pair even
though it is not an element of the base lattice, while the parsable
three-element tuple is passed through. -/
theorem atom_evaluate_literal_raises_witness :
    (Formula.evaluate (.atom "p") M1 wBad L01 = .ok ("(bad", "(bad") ∧
      rawAtomValue "(bad" = .pairVal ("(bad", "(bad") ∧
      "(bad" ∉ L01.data.elements) ∧
    rawAtomValue "(1, 2, 3)" = .nonPairLiteral "(1, 2, 3)" :=
  ⟨⟨((atom_evaluate_literal_raises "p" M1 wBad L01 "(bad" (by decide) (by decide)
      (by decide)).1 (by decide)).1,
    ((atom_evaluate_literal_raises "p" M1 wBad L01 "(bad" (by decide) (by decide)
      (by decide)).1 (by decide)).2, by decide⟩,
   (atom_evaluate_literal_raises "p" M1 wTriple L01 "(1, 2, 3)" (by decide)
      (by decide) (by decide)).2 (by decide)⟩

/-- C1: Diamond evaluation fails with UndefinedAction exactly when the action
is not in the action set of the model; otherwise it combines, for exactly the
stored targets of the action at the world, the relation weight with the
value of the child at the target through residue_meet, and returns weak_join_set
of the collected results; with no stored target it returns (bottom, top). -/
theorem diamond_evaluate_spec (c : Formula) (a : String) (m : Model) (w : World)
    (L : Lattice) :
    (a ∉ m.actions →
      Formula.evaluate (.diamond c a) m w L = .error (.undefinedAction a m.name_model)) ∧
    (a ∈ m.actions →
      Formula.evaluate (.diamond c a) m w L =
        ((m.targets_map a w).mapM (fun tw => do
            let v ← Formula.evaluate c m tw.1 L
            liftLat (TwistStructure.residue_meet L tw.2 v)) >>= fun results =>
          liftLat (TwistStructure.weak_join_set L results))) ∧
    (a ∈ m.actions → m.targets_map a w = [] →
      Formula.evaluate (.diamond c a) m w L = .ok (L.bottom, L.top)) := by
  refine ⟨?_, ?_, ?_⟩
  · intro h
    simp [Formula.evaluate, diamondEval, h]
  · intro h
    simp [Formula.evaluate, diamondEval, h, evalResidueList_eq_mapM]
  · intro h ht
    simp only [Formula.evaluate, diamondEval, h, if_true, ht, evalResidueList]
    rfl

/-- C1 witness. -/
theorem diamond_evaluate_spec_witness :
    Formula.evaluate (.diamond (.atom "q") "b") M1 wA L01 =
      .error (.undefinedAction "b" "M1") ∧
    Formula.evaluate (.diamond (.atom "q") "a") M1 wB L01 = .ok (L01.bottom, L01.top) :=
  ⟨(diamond_evaluate_spec (.atom "q") "b" M1 wA L01).1 (by decide),
   (diamond_evaluate_spec (.atom "q") "a" M1 wB L01).2.2 (by decide) (by decide)⟩

/-- A successful Lattice construction returns an object over exactly the
supplied data, and the validation check passed on it. -/
theorem mkLattice_ok {name : String} {elems : List Label}
    {rels : List (Label × Label)} {imp : List ((Label × Label) × Label)}
    {L : Lattice} (h : mkLattice name elems rels imp = .ok L) :
    L.data = ⟨name, elems, rels, imp⟩ ∧
      LatticeData.check_is_lattice ⟨name, elems, rels, imp⟩ = true := by
  by_cases hc : LatticeData.check_is_lattice ⟨name, elems, rels, imp⟩ = true
  · refine ⟨?_, hc⟩
    simp only [mkLattice] at h
    rw [if_pos hc] at h
    cases elems with
    | nil => cases h
    | cons e es =>
      cases hm : LatticeData.fold_meet ⟨name, e :: es, rels, imp⟩ (e :: es) e with
      | error e1 => simp only [hm] at h; cases h
      | ok b =>
        cases hj : LatticeData.fold_join ⟨name, e :: es, rels, imp⟩ (e :: es) e with
        | error e2 => simp only [hm, hj] at h; cases h
        | ok t =>
          simp only [hm, hj] at h
          injection h with h2
          rw [← h2]
  · simp only [mkLattice] at h
    rw [if_neg hc] at h
    cases h

/-- When the validation check passed, meet succeeds on every pair of
elements. -/
theorem meet_ok_of_check {D : LatticeData} (h : D.check_is_lattice = true)
    {a b : Label} (ha : a ∈ D.elements) (hb : b ∈ D.elements) :
    ∃ x, D.meet a b = .ok x := by
  unfold LatticeData.check_is_lattice at h
  rw [List.all_eq_true] at h
  have h2 := h a ha
  simp only [List.all_eq_true] at h2
  have h3 := h2 b hb
  rw [Bool.and_eq_true] at h3
  obtain ⟨hm, _⟩ := h3
  cases hme : D.meet a b with
  | ok x => exact ⟨x, rfl⟩
  | error e => rw [hme] at hm; simp [exceptOk] at hm

/-- When the validation check passed, join succeeds on every pair of
elements. -/
theorem join_ok_of_check {D : LatticeData} (h : D.check_is_lattice = true)
    {a b : Label} (ha : a ∈ D.elements) (hb : b ∈ D.elements) :
    ∃ x, D.join a b = .ok x := by
  unfold LatticeData.check_is_lattice at h
  rw [List.all_eq_true] at h
  have h2 := h a ha
  simp only [List.all_eq_true] at h2
  have h3 := h2 b hb
  rw [Bool.and_eq_true] at h3
  obtain ⟨_, hj⟩ := h3
  cases hje : D.join a b with
  | ok x => exact ⟨x, rfl⟩
  | error e => rw [hje] at hj; simp [exceptOk] at hj

/-- Meet only raises its own three errors. -/
theorem meet_error_shape {D : LatticeData} {a b : Label} {e : LatErr}
    (h : D.meet a b = .error e) :
    e = .elemsNotInLattice a b ∨ e = .noLowerBound a b ∨ e = .noUniqueMeet a b := by
  simp only [LatticeData.meet] at h
  split at h
  · split at h
    · cases h; right; left; rfl
    · split at h
      · cases h
      · cases h; right; right; rfl
  · cases h; left; rfl

/-- C3: over twist-structure carriers of a successfully constructed lattice,
residue_meet returns the pair of meet of the truth components and meet of
the two cross implications, and it raises the UndefinedOperation error for
residue_meet exactly when one of the two implication lookups is absent. -/
theorem residue_meet_spec (name : String) (elems : List Label)
    (rels : List (Label × Label)) (imp : List ((Label × Label) × Label))
    (L : Lattice) (hmk : mkLattice name elems rels imp = .ok L)
    (t1 f1 t2 f2 : Label) (ht1 : t1 ∈ elems) (hf1 : f1 ∈ elems)
    (ht2 : t2 ∈ elems) (hf2 : f2 ∈ elems) :
    (∀ i1 i2, L.data.implication t1 f2 = some i1 → L.data.implication t2 f1 = some i2 →
      TwistStructure.residue_meet L (t1, f1) (t2, f2) =
        (do
          let mt ← L.data.meet t1 t2
          let mi ← L.data.meet i1 i2
          return (mt, mi))) ∧
    (TwistStructure.residue_meet L (t1, f1) (t2, f2) =
        .error .implicationMissingResidue ↔
      (L.data.implication t1 f2 = none ∨ L.data.implication t2 f1 = none)) := by
  obtain ⟨hdata, hcheck⟩ := mkLattice_ok hmk
  have helems : L.data.elements = elems := by rw [hdata]
  have hcheck2 : L.data.check_is_lattice = true := by rw [hdata]; exact hcheck
  obtain ⟨mt, hmt⟩ :=
    meet_ok_of_check hcheck2 (a := t1) (b := t2)
      (by rw [helems]; exact ht1) (by rw [helems]; exact ht2)
  constructor
  · intro i1 i2 h1 h2
    simp [TwistStructure.residue_meet, h1, h2]
  · constructor
    · intro h
      cases hx : L.data.implication t1 f2 with
      | none => exact Or.inl rfl
      | some i1 =>
        cases hy : L.data.implication t2 f1 with
        | none => exact Or.inr rfl
        | some i2 =>
          exfalso
          rw [TwistStructure.residue_meet] at h
          simp only [hmt, hx, hy, ok_bind] at h
          cases hmi : L.data.meet i1 i2 with
          | ok z =>
            simp only [hmi, ok_bind] at h
            exact Except.noConfusion h
          | error e =>
            simp only [hmi, error_bind] at h
            cases h
            rcases meet_error_shape hmi with h3 | h3 | h3 <;> cases h3
    · intro h
      rw [TwistStructure.residue_meet]
      simp only [hmt, ok_bind]
      rcases h with h | h
      · simp only [h]
      · cases hx : L.data.implication t1 f2 <;> simp only [h]

/-- C3 witness: the concrete modal scenario of the specification. -/
theorem residue_meet_spec_witness :
    TwistStructure.residue_meet L01 ("1", "0") ("1", "0") = .ok ("1", "0") := by
  have h :=
    (residue_meet_spec "L01" ["0", "1"] [("0", "0"), ("1", "1"), ("0", "1")]
      [(("0", "0"), "1"), (("0", "1"), "1"), (("1", "0"), "0"), (("1", "1"), "1")]
      L01 (by decide) "1" "0" "1" "0" (by decide) (by decide) (by decide)
      (by decide)).1 "0" "0" (by decide) (by decide)
  rw [h]
  decide

/-- A successful meet returns a greatest lower bound. -/
theorem meet_ok_glb {D : LatticeData} {a b x : Label}
    (ha : a ∈ D.elements) (hb : b ∈ D.elements) (h : D.meet a b = .ok x) :
    isGLB D a b x := by
  simp only [LatticeData.meet] at h
  rw [if_pos ⟨ha, hb⟩] at h
  split at h
  · cases h
  · split at h
    · rename_i x' heq
      injection h with h2
      subst h2
      have hmem := List.mem_of_find?_eq_some heq
      have hpred := List.find?_some heq
      simp only [LatticeData.lower_bounds, List.mem_filter] at hmem
      obtain ⟨hx1, hx2⟩ := hmem
      rw [Bool.and_eq_true] at hx2
      simp only [List.all_eq_true] at hpred
      refine ⟨hx1, hx2.1, hx2.2, ?_⟩
      intro y hy hya hyb
      refine hpred y ?_
      simp only [LatticeData.lower_bounds, List.mem_filter]
      exact ⟨hy, by simp [hya, hyb]⟩
    · cases h

/-- A successful join returns a least upper bound. -/
theorem join_ok_lub {D : LatticeData} {a b x : Label}
    (ha : a ∈ D.elements) (hb : b ∈ D.elements) (h : D.join a b = .ok x) :
    isLUB D a b x := by
  simp only [LatticeData.join] at h
  rw [if_pos ⟨ha, hb⟩] at h
  split at h
  · cases h
  · split at h
    · rename_i x' heq
      injection h with h2
      subst h2
      have hmem := List.mem_of_find?_eq_some heq
      have hpred := List.find?_some heq
      simp only [LatticeData.upper_bounds, List.mem_filter] at hmem
      obtain ⟨hx1, hx2⟩ := hmem
      rw [Bool.and_eq_true] at hx2
      simp only [List.all_eq_true] at hpred
      refine ⟨hx1, hx2.1, hx2.2, ?_⟩
      intro y hy hya hyb
      refine hpred y ?_
      simp only [LatticeData.upper_bounds, List.mem_filter]
      exact ⟨hy, by simp [hya, hyb]⟩
    · cases h

/-- Under antisymmetry of the stored order, greatest lower bounds are
unique. -/
theorem glb_unique {D : LatticeData} (hanti : antisymmetricOn D.relations = true)
    {a b x y : Label} (hx : isGLB D a b x) (hy : isGLB D a b y) : y = x := by
  have h1 : D.is_less_than_or_equal y x = true := hx.2.2.2 y hy.1 hy.2.1 hy.2.2.1
  have h2 : D.is_less_than_or_equal x y = true := hy.2.2.2 x hx.1 hx.2.1 hx.2.2.1
  simp only [LatticeData.is_less_than_or_equal, decide_eq_true_eq] at h1 h2
  simp only [antisymmetricOn, List.all_eq_true] at hanti
  have h3 := hanti (y, x) h1
  rw [Bool.or_eq_true] at h3
  rcases h3 with h3 | h3
  · rw [Bool.not_eq_true', decide_eq_false_iff_not] at h3
    exact absurd h2 h3
  · exact decide_eq_true_eq.mp h3

/-- Under antisymmetry of the stored order, least upper bounds are unique. -/
theorem lub_unique {D : LatticeData} (hanti : antisymmetricOn D.relations = true)
    {a b x y : Label} (hx : isLUB D a b x) (hy : isLUB D a b y) : y = x := by
  have h1 : D.is_less_than_or_equal x y = true := hx.2.2.2 y hy.1 hy.2.1 hy.2.2.1
  have h2 : D.is_less_than_or_equal y x = true := hy.2.2.2 x hx.1 hx.2.1 hx.2.2.1
  simp only [LatticeData.is_less_than_or_equal, decide_eq_true_eq] at h1 h2
  simp only [antisymmetricOn, List.all_eq_true] at hanti
  have h3 := hanti (y, x) h2
  rw [Bool.or_eq_true] at h3
  rcases h3 with h3 | h3
  · rw [Bool.not_eq_true', decide_eq_false_iff_not] at h3
    exact absurd h1 h3
  · exact decide_eq_true_eq.mp h3

/-- When the meet raise conditions hold, meet cannot succeed. -/
theorem meet_not_ok_of_meetFails {D : LatticeData} {a b : Label}
    (hf : meetFails D a b) (x : Label) : D.meet a b ≠ .ok x := by
  intro h
  simp only [LatticeData.meet] at h
  split at h
  · split at h
    · cases h
    · rename_i hne
      split at h
      · rename_i x' heq
        have hmem := List.mem_of_find?_eq_some heq
        have hpred := List.find?_some heq
        simp only [List.all_eq_true] at hpred
        rcases hf with hf | hf
        · rw [hf] at hmem; cases hmem
        · obtain ⟨y, hy, hyf⟩ := hf x' hmem
          rw [hpred y hy] at hyf
          cases hyf
      · cases h
  · cases h

/-- When the join raise conditions hold, join cannot succeed. -/
theorem join_not_ok_of_joinFails {D : LatticeData} {a b : Label}
    (hf : joinFails D a b) (x : Label) : D.join a b ≠ .ok x := by
  intro h
  simp only [LatticeData.join] at h
  split at h
  · split at h
    · cases h
    · rename_i hne
      split at h
      · rename_i x' heq
        have hmem := List.mem_of_find?_eq_some heq
        have hpred := List.find?_some heq
        simp only [List.all_eq_true] at hpred
        rcases hf with hf | hf
        · rw [hf] at hmem; cases hmem
        · obtain ⟨y, hy, hyf⟩ := hf x' hmem
          rw [hpred y hy] at hyf
          cases hyf
      · cases h
  · cases h

/-- A pair on which meet or join raises makes the whole validation check
fail. -/
theorem check_false_of_fails {D : LatticeData} {a b : Label}
    (ha : a ∈ D.elements) (hb : b ∈ D.elements)
    (hf : meetFails D a b ∨ joinFails D a b) : D.check_is_lattice = false := by
  by_contra hc
  rw [Bool.not_eq_false] at hc
  rcases hf with hf | hf
  · obtain ⟨x, hx⟩ := meet_ok_of_check hc ha hb
    exact meet_not_ok_of_meetFails hf x hx
  · obtain ⟨x, hx⟩ := join_ok_of_check hc ha hb
    exact join_not_ok_of_joinFails hf x hx

/-- C2: on a successfully constructed lattice whose order is antisymmetric,
meet and join return the unique greatest lower bound and unique least upper
bound of every pair of elements; and construction over an order on which
some pair has no bound or no extremal bound fails with the error naming the
lattice, so no object is created. -/
theorem lattice_meet_join_spec (name : String) (elems : List Label)
    (rels : List (Label × Label)) (imp : List ((Label × Label) × Label)) :
    (∀ L, mkLattice name elems rels imp = .ok L → antisymmetricOn rels = true →
      ∀ a b, a ∈ elems → b ∈ elems →
        (∃ x, L.data.meet a b = .ok x ∧ isGLB L.data a b x ∧
          ∀ y, isGLB L.data a b y → y = x) ∧
        (∃ x, L.data.join a b = .ok x ∧ isLUB L.data a b x ∧
          ∀ y, isLUB L.data a b y → y = x)) ∧
    (∀ a b, a ∈ elems → b ∈ elems →
      (meetFails ⟨name, elems, rels, imp⟩ a b ∨ joinFails ⟨name, elems, rels, imp⟩ a b) →
      mkLattice name elems rels imp = .error (.notALattice name)) := by
  constructor
  · intro L hmk hanti a b ha hb
    obtain ⟨hdata, hcheck⟩ := mkLattice_ok hmk
    have ha2 : a ∈ L.data.elements := by rw [hdata]; exact ha
    have hb2 : b ∈ L.data.elements := by rw [hdata]; exact hb
    have hcheck2 : L.data.check_is_lattice = true := by rw [hdata]; exact hcheck
    have hanti2 : antisymmetricOn L.data.relations = true := by rw [hdata]; exact hanti
    constructor
    · obtain ⟨x, hx⟩ := meet_ok_of_check hcheck2 ha2 hb2
      have hglb := meet_ok_glb ha2 hb2 hx
      exact ⟨x, hx, hglb, fun y hy => glb_unique hanti2 hglb hy⟩
    · obtain ⟨x, hx⟩ := join_ok_of_check hcheck2 ha2 hb2
      have hlub := join_ok_lub ha2 hb2 hx
      exact ⟨x, hx, hlub, fun y hy => lub_unique hanti2 hlub hy⟩
  · intro a b ha hb hf
    have hc := check_false_of_fails ha hb hf
    simp [mkLattice, hc]

/-- C2 witness: the two-element lattice, and a two-element antichain over
which construction fails. -/
theorem lattice_meet_join_spec_witness :
    ((∃ x, L01.data.meet "0" "1" = .ok x ∧ isGLB L01.data "0" "1" x ∧
      ∀ y, isGLB L01.data "0" "1" y → y = x) ∧
     (∃ x, L01.data.join "0" "1" = .ok x ∧ isLUB L01.data "0" "1" x ∧
      ∀ y, isLUB L01.data "0" "1" y → y = x)) ∧
    mkLattice "bad" ["a", "b"] [("a", "a"), ("b", "b")] [] =
      .error (.notALattice "bad") :=
  ⟨(lattice_meet_join_spec "L01" ["0", "1"] [("0", "0"), ("1", "1"), ("0", "1")]
      [(("0", "0"), "1"), (("0", "1"), "1"), (("1", "0"), "0"), (("1", "1"), "1")]).1
      L01 (by decide) (by decide) "0" "1" (by decide) (by decide),
   (lattice_meet_join_spec "bad" ["a", "b"] [("a", "a"), ("b", "b")] []).2
      "a" "b" (by decide) (by decide) (Or.inl (Or.inl (by decide)))⟩

theorem mem_insertByName {x w : World} {l : List World} :
    x ∈ insertByName w l ↔ x = w ∨ x ∈ l := by
  induction l with
  | nil => simp [insertByName]
  | cons y ys ih =>
    simp only [insertByName]
    split
    · exact List.mem_cons
    · simp only [List.mem_cons, ih]
      tauto

theorem mem_sortWorlds {x : World} {ws : List World} :
    x ∈ sortWorlds ws ↔ x ∈ ws := by
  induction ws with
  | nil => simp [sortWorlds]
  | cons w rest ih =>
    show x ∈ insertByName w (sortWorlds rest) ↔ _
    rw [mem_insertByName, ih]
    simp [List.mem_cons]

/-- The per-world loop of the validity check collects exactly the per-world
evaluations, and the failed list is empty exactly when every collected
result is (top, bottom). -/
theorem validityLoop_ok {m : Model} {L : Lattice} {root : Formula} :
    ∀ {ws : List World} {results : List Pair} {failed : List String},
      validityLoop m L root ws = .ok (results, failed) →
      ws.mapM (fun w => root.evaluate m w L) = .ok results ∧
      (failed.isEmpty = true ↔ ∀ r ∈ results, r = (L.top, L.bottom)) := by
  intro ws
  induction ws with
  | nil =>
    intro results failed h
    simp only [validityLoop] at h
    injection h with h2
    cases h2
    exact ⟨rfl, by simp⟩
  | cons w rest ih =>
    intro results failed h
    simp only [validityLoop] at h
    split at h
    · cases he : Formula.evaluate root m w L with
      | error e => rw [he] at h; cases h
      | ok res =>
        rw [he, ok_bind] at h
        cases hrec : validityLoop m L root rest with
        | error e => rw [hrec] at h; cases h
        | ok rf =>
          rw [hrec, ok_bind] at h
          injection h with h2
          cases h2
          obtain ⟨hmap, hiff⟩ := ih hrec
          constructor
          · rw [List.mapM_cons, he, ok_bind, hmap, ok_bind]; rfl
          · by_cases hres : res = (L.top, L.bottom) <;>
              simp [hres, hiff]
    · cases h

/-- C8: the validity check evaluates the formula at every world of the
model (in name order, a permutation of the worlds), aggregates the results
with weak_meet_set, and declares validity exactly when the aggregate is
(top, bottom) and every per-world result is (top, bottom). -/
theorem validity_check_spec (m : Model) (L : Lattice) (root : Formula)
    (res : ValidityResult) (h : check_model_validity m L root = .ok res) :
    ∃ results : List Pair,
      (sortWorlds m.worlds).mapM (fun w => root.evaluate m w L) = .ok results ∧
      (∀ w : World, w ∈ sortWorlds m.worlds ↔ w ∈ m.worlds) ∧
      liftLat (TwistStructure.weak_meet_set L results) = .ok res.validity_val ∧
      (res.is_valid = true ↔
        (res.validity_val = (L.top, L.bottom) ∧
          ∀ r ∈ results, r = (L.top, L.bottom))) := by
  simp only [check_model_validity] at h
  cases hvl : validityLoop m L root (sortWorlds m.worlds) with
  | error e => rw [hvl] at h; cases h
  | ok rf =>
    rw [hvl, ok_bind] at h
    cases hws : liftLat (TwistStructure.weak_meet_set L rf.1) with
    | error e => rw [hws] at h; cases h
    | ok v =>
      rw [hws, ok_bind] at h
      injection h with h2
      obtain ⟨hmap, hiff⟩ := validityLoop_ok hvl
      refine ⟨rf.1, hmap, fun w => mem_sortWorlds, ?_, ?_⟩
      · rw [← h2]; exact hws
      · rw [← h2]
        show (decide (v = (L.top, L.bottom)) && rf.2.isEmpty) = true ↔ _
        rw [Bool.and_eq_true, decide_eq_true_eq, hiff]

/-- C8 witness. -/
theorem validity_check_spec_witness :
    ∃ results : List Pair,
      (sortWorlds M2.worlds).mapM
        (fun w => Formula.evaluate (.atom "p") M2 w L01) = .ok results ∧
      (∀ w : World, w ∈ sortWorlds M2.worlds ↔ w ∈ M2.worlds) ∧
      liftLat (TwistStructure.weak_meet_set L01 results) = .ok ("1", "0") ∧
      (true = true ↔
        (("1", "0") = (L01.top, L01.bottom) ∧
          ∀ r ∈ results, r = (L01.top, L01.bottom))) :=
  validity_check_spec M2 L01 (.atom "p") ⟨("1", "0"), true⟩ (by decide)

theorem liftLat_no_undefinedAction {α : Type} (x : Except LatErr α)
    (b s : String) : liftLat x ≠ .error (.undefinedAction b s) := by
  cases x <;> simp [liftLat]

/-- An error out of the Diamond loop comes from evaluating the child at one
of the stored targets, or is a lifted lattice error. -/
theorem evalResidueList_error_shape {L : Lattice}
    {f : World → Except EvalErr Pair} {l : List (World × Pair)} {e : EvalErr}
    (h : evalResidueList L f l = .error e) :
    (∃ tw ∈ l, f tw.1 = .error e) ∨ ∃ le, e = .lat le := by
  induction l with
  | nil => cases h
  | cons tw rest ih =>
    simp only [evalResidueList] at h
    cases hf : f tw.1 with
    | error e2 =>
      rw [hf] at h
      cases h
      exact Or.inl ⟨tw, List.mem_cons_self tw rest, hf⟩
    | ok v =>
      rw [hf, ok_bind] at h
      cases hr : liftLat (TwistStructure.residue_meet L tw.2 v) with
      | error e2 =>
        rw [hr] at h
        cases h
        cases hres : TwistStructure.residue_meet L tw.2 v with
        | ok p => rw [hres] at hr; cases hr
        | error le =>
          rw [hres] at hr
          injection hr with h3
          exact Or.inr ⟨le, h3.symm⟩
      | ok rv =>
        rw [hr, ok_bind] at h
        cases hrest : evalResidueList L f rest with
        | error e2 =>
          rw [hrest] at h
          cases h
          rcases ih hrest with ⟨tw2, htw2, hf2⟩ | he
          · exact Or.inl ⟨tw2, List.mem_cons_of_mem tw htw2, hf2⟩
          · exact Or.inr he
        | ok rs =>
          rw [hrest, ok_bind] at h
          exact Except.noConfusion h

/-- An UndefinedAction error out of the Diamond body is either its own
action check failing, or the same error surfacing from the child evaluator
at one of the stored targets. -/
theorem diamondEval_undefinedAction {m : Model} {w : World} {L : Lattice}
    {a : String} {f : World → Except EvalErr Pair} {b s : String}
    (h : diamondEval m w L a f = .error (.undefinedAction b s)) :
    (b = a ∧ a ∉ m.actions) ∨
      ∃ tw ∈ m.targets_map a w, f tw.1 = .error (.undefinedAction b s) := by
  simp only [diamondEval] at h
  split at h
  · cases hres : evalResidueList L f (m.targets_map a w) with
    | error e =>
      rw [hres] at h
      cases h
      rcases evalResidueList_error_shape hres with ⟨tw, htw, hf⟩ | ⟨le, hle⟩
      · exact Or.inr ⟨tw, htw, hf⟩
      · cases hle
    | ok results =>
      rw [hres, ok_bind] at h
      exact absurd h (liftLat_no_undefinedAction _ b s)
  · rename_i hmem
    injection h with h2
    injection h2 with h3 h4
    exact Or.inl ⟨h3.symm, hmem⟩

/-- Any UndefinedAction error raised anywhere during evaluation names an
action outside the action set of the model. -/
theorem evaluate_undefinedAction_not_mem :
    ∀ (fm : Formula) (m : Model) (w : World) (L : Lattice) (b s : String),
      Formula.evaluate fm m w L = .error (.undefinedAction b s) →
      b ∉ m.actions := by
  intro fm
  induction fm with
  | atom n =>
    intro m w L b s h
    simp only [Formula.evaluate] at h
    split at h
    · cases h
    · split at h
      · cases h
      · split at h
        · cases h
        · injection h with h2; cases h2
  | not c ih =>
    intro m w L b s h
    simp only [Formula.evaluate] at h
    cases he : Formula.evaluate c m w L with
    | error e => rw [he, error_map] at h; cases h; exact ih m w L b s he
    | ok v => rw [he, ok_map] at h; cases h
  | and l r ihl ihr =>
    intro m w L b s h
    simp only [Formula.evaluate] at h
    cases hl : Formula.evaluate l m w L with
    | error e => rw [hl] at h; cases h; exact ihl m w L b s hl
    | ok vl =>
      rw [hl, ok_bind] at h
      cases hr : Formula.evaluate r m w L with
      | error e => rw [hr] at h; cases h; exact ihr m w L b s hr
      | ok vr =>
        rw [hr, ok_bind] at h
        exact absurd h (liftLat_no_undefinedAction _ b s)
  | or l r ihl ihr =>
    intro m w L b s h
    simp only [Formula.evaluate] at h
    cases hl : Formula.evaluate l m w L with
    | error e => rw [hl] at h; cases h; exact ihl m w L b s hl
    | ok vl =>
      rw [hl, ok_bind] at h
      cases hr : Formula.evaluate r m w L with
      | error e => rw [hr] at h; cases h; exact ihr m w L b s hr
      | ok vr =>
        rw [hr, ok_bind] at h
        exact absurd h (liftLat_no_undefinedAction _ b s)
  | matImplies l r ihl ihr =>
    intro m w L b s h
    simp only [Formula.evaluate] at h
    cases hl : Formula.evaluate l m w L with
    | error e => rw [hl] at h; cases h; exact ihl m w L b s hl
    | ok vl =>
      rw [hl, ok_bind] at h
      cases hr : Formula.evaluate r m w L with
      | error e => rw [hr] at h; cases h; exact ihr m w L b s hr
      | ok vr =>
        rw [hr, ok_bind] at h
        exact absurd h (liftLat_no_undefinedAction _ b s)
  | matIff l r ihl ihr =>
    intro m w L b s h
    simp only [Formula.evaluate] at h
    cases hl : Formula.evaluate l m w L with
    | error e => rw [hl] at h; cases h; exact ihl m w L b s hl
    | ok vl =>
      rw [hl, ok_bind] at h
      cases hr : Formula.evaluate r m w L with
      | error e => rw [hr] at h; cases h; exact ihr m w L b s hr
      | ok vr =>
        rw [hr, ok_bind] at h
        cases h1 : liftLat (TwistStructure.weak_join L
            (TwistStructure.negation vl) vr) with
        | error e =>
          rw [h1] at h; cases h
          exact absurd h1 (liftLat_no_undefinedAction _ b s)
        | ok i1 =>
          rw [h1, ok_bind] at h
          cases h2 : liftLat (TwistStructure.weak_join L
              (TwistStructure.negation vr) vl) with
          | error e =>
            rw [h2] at h; cases h
            exact absurd h2 (liftLat_no_undefinedAction _ b s)
          | ok i2 =>
            rw [h2, ok_bind] at h
            exact absurd h (liftLat_no_undefinedAction _ b s)
  | implies l r ihl ihr =>
    intro m w L b s h
    simp only [Formula.evaluate] at h
    cases hl : Formula.evaluate l m w L with
    | error e => rw [hl] at h; cases h; exact ihl m w L b s hl
    | ok vl =>
      rw [hl, ok_bind] at h
      cases hr : Formula.evaluate r m w L with
      | error e => rw [hr] at h; cases h; exact ihr m w L b s hr
      | ok vr =>
        rw [hr, ok_bind] at h
        exact absurd h (liftLat_no_undefinedAction _ b s)
  | iff l r ihl ihr =>
    intro m w L b s h
    simp only [Formula.evaluate] at h
    cases hl : Formula.evaluate l m w L with
    | error e => rw [hl] at h; cases h; exact ihl m w L b s hl
    | ok vl =>
      rw [hl, ok_bind] at h
      cases hr : Formula.evaluate r m w L with
      | error e => rw [hr] at h; cases h; exact ihr m w L b s hr
      | ok vr =>
        rw [hr, ok_bind] at h
        cases h1 : liftLat (TwistStructure.implication L vl vr) with
        | error e =>
          rw [h1] at h; cases h
          exact absurd h1 (liftLat_no_undefinedAction _ b s)
        | ok i1 =>
          rw [h1, ok_bind] at h
          cases h2 : liftLat (TwistStructure.implication L vr vl) with
          | error e =>
            rw [h2] at h; cases h
            exact absurd h2 (liftLat_no_undefinedAction _ b s)
          | ok i2 =>
            rw [h2, ok_bind] at h
            exact absurd h (liftLat_no_undefinedAction _ b s)
  | diamond c a ih =>
    intro m w L b s h
    rcases diamondEval_undefinedAction h with ⟨heq, hnot⟩ | ⟨tw, htw, hf⟩
    · exact heq ▸ hnot
    · exact ih m tw.1 L b s hf
  | box c a ih =>
    intro m w L b s h
    simp only [Formula.evaluate] at h
    cases hd : diamondEval m w L a
        (fun t => (Formula.evaluate c m t L).map TwistStructure.negation) with
    | ok v => rw [hd, ok_map] at h; cases h
    | error e =>
      rw [hd, error_map] at h
      cases h
      rcases diamondEval_undefinedAction hd with ⟨heq, hnot⟩ | ⟨tw, htw, hf⟩
      · exact heq ▸ hnot
      · cases hc : Formula.evaluate c m tw.1 L with
        | ok v => rw [hc, ok_map] at hf; cases hf
        | error e2 =>
          rw [hc, error_map] at hf
          cases hf
          exact ih m tw.1 L b s hc

/-- C10: every key of the accessibility-relations argument ends up in the
action set of the constructed model, and for such an action neither Diamond nor
Box over it can raise the UndefinedAction error naming it. -/
theorem model_constructor_actions (name_model : String) (worlds : List World)
    (acc : List (String × List (World × List (World × Option Pair))))
    (props actions : List String) (a : String) (ha : a ∈ acc.map Prod.fst) :
    a ∈ (mkModel name_model worlds acc props actions).actions ∧
    ∀ (c : Formula) (w : World) (L : Lattice) (s : String),
      Formula.evaluate (.diamond c a) (mkModel name_model worlds acc props actions)
          w L ≠ .error (.undefinedAction a s) ∧
      Formula.evaluate (.box c a) (mkModel name_model worlds acc props actions)
          w L ≠ .error (.undefinedAction a s) := by
  have hmem : a ∈ (mkModel name_model worlds acc props actions).actions := by
    simp only [mkModel]
    by_cases h : a ∈ actions
    · exact List.mem_append_left _ h
    · refine List.mem_append_right _ ?_
      rw [List.mem_filter]
      exact ⟨ha, by simp [h]⟩
  refine ⟨hmem, fun c w L s => ⟨fun h => ?_, fun h => ?_⟩⟩
  · exact evaluate_undefinedAction_not_mem _ _ _ _ _ _ h hmem
  · exact evaluate_undefinedAction_not_mem _ _ _ _ _ _ h hmem

/-- C10 witness. -/
theorem model_constructor_actions_witness :
    "a" ∈ M1.actions ∧
    Formula.evaluate (.diamond (.atom "q") "a") M1 wA L01 ≠
      .error (.undefinedAction "a" "M1") ∧
    Formula.evaluate (.box (.atom "q") "a") M1 wA L01 ≠
      .error (.undefinedAction "a" "M1") := by
  have h := model_constructor_actions "M1" [wA, wB]
    [("a", [(wA, [(wB, some ("1", "0"))])])] ["p", "q"] ["a"] "a" (by decide)
  exact ⟨h.1, (h.2 (.atom "q") wA L01 "M1").1, (h.2 (.atom "q") wA L01 "M1").2⟩

end PLTS
